import Mathlib

/-!
Verification of the UTxO snapshot validator of `src/hydra/initial_utxo.rs`.

The Rust validator parses a JSON document (via serde) into a typed model
and runs a sequence of structural checks.  We embed the JSON layer as an
inductive `Json` tree (objects as association lists of fields, in document
order), the serde-derived deserializer and serializer as explicit functions
on that tree, and the validation pass as functions returning
`Except String Unit`, mirroring the Rust `Result<(), String>` plumbing and
its exact error strings.
-/

namespace Juno

/-- A JSON value.  Objects keep their fields as an ordered association list,
numbers are modelled as unbounded integers (the document format only uses
integral `u64` / `i64` numbers; range checks appear in the parser where the
Rust types impose them). -/
inductive Json where
  | null
  | bool (b : Bool)
  | num (n : Int)
  | str (s : String)
  | arr (elems : List Json)
  | obj (fields : List (String × Json))
deriving Repr

/-- Rust `enum ScriptType` with `serde(rename_all = "camelCase")`: the four
variants `SimpleScript`, `PlutusScriptV1`, `PlutusScriptV2`, `PlutusScriptV3`.
The serde attribute makes their JSON names the camelCase strings
`"simpleScript"`, `"plutusScriptV1"`, `"plutusScriptV2"`, `"plutusScriptV3"`. -/
inductive ScriptType where
  | simpleScript
  | plutusScriptV1
  | plutusScriptV2
  | plutusScriptV3
deriving Repr, DecidableEq

/-- Rust `struct ScriptDetails` (no `rename_all`; the `script_type` field is
renamed to `"type"` in JSON, the others keep their snake_case names). -/
structure ScriptDetails where
  cbor_hex : String
  description : String
  script_type : ScriptType
deriving Repr, DecidableEq

/-- Rust `struct Script` (no `rename_all`: JSON names are `script_language`
and `script`). -/
structure Script where
  script_language : String
  script : ScriptDetails
deriving Repr, DecidableEq

/-- Rust `struct Value`: `lovelace: u64` (defaulting to 0 when absent) plus
`#[serde(flatten)] assets: HashMap<String, HashMap<String, i64>>`.  The two
hash maps are modelled as association lists in document order; `u64` as `Nat`
and `i64` as `Int` (the parser enforces the ranges). -/
structure Value where
  lovelace : Nat
  assets : List (String × List (String × Int))
deriving Repr, DecidableEq

/-- Rust `struct TxOut` (no `rename_all`: JSON field names are the snake_case
field names).  `Option (Option _)` mirrors the Rust double option: `none` for
an absent key, `some none` for a key present with JSON `null`, `some (some x)`
for a key present with a value. -/
structure TxOut where
  address : String
  value : Value
  reference_script : Option (Option Script)
  datumhash : Option (Option String)
  inline_datum : Option (Option Json)
  inline_datumhash : Option (Option String)
  inline_datum_raw : Option (Option String)
  datum : Option (Option String)
deriving Repr

/-- Rust `type UTxO = HashMap<String, TxOut>`, modelled as an association
list in document order (validation never merges duplicate keys, and its
success is independent of entry order). -/
abbrev UTxO := List (String × TxOut)

/-- Rust `c.is_ascii_hexdigit()`: `0-9`, `a-f`, `A-F`. -/
def isAsciiHexdigit (c : Char) : Bool :=
  (('0' ≤ c) && (c ≤ '9')) || (('a' ≤ c) && (c ≤ 'f')) || (('A' ≤ c) && (c ≤ 'F'))

/-- Rust `validate_hex_string`: every character is an ASCII hex digit. -/
def validate_hex_string (s : String) : Bool :=
  s.data.all isAsciiHexdigit

/-- A character matched by the regex class `[0-9a-f]` (lowercase only). -/
def isLowerHexChar (c : Char) : Bool :=
  (('0' ≤ c) && (c ≤ '9')) || (('a' ≤ c) && (c ≤ 'f'))

/-- A character matched by the regex class `[0-9]`. -/
def isDigitChar (c : Char) : Bool :=
  ('0' ≤ c) && (c ≤ '9')

/-- The anchored regex `^[0-9a-f]{64}#[0-9]+$` used for UTxO reference keys:
exactly 64 lowercase hex characters, a `#`, then one or more digits. -/
def key_regex_match (s : String) : Bool :=
  let hash := s.data.take 64
  let rest := s.data.drop 64
  (hash.length == 64) && hash.all isLowerHexChar &&
    (match rest with
     | '#' :: idx => (!idx.isEmpty) && idx.all isDigitChar
     | _ => false)

/-- Rust `validate_script`: the CBOR payload must be hex and the language tag
non-empty, with the source's error strings. -/
def validate_script (s : Script) : Except String Unit :=
  if !(validate_hex_string s.script.cbor_hex) then
    .error "Invalid hex in script"
  else if s.script_language.isEmpty then
    .error "Script language cannot be empty"
  else
    .ok ()

/-- Inner loop of Rust `validate_value`: each asset name is at most 64 bytes
and all hex.  (`asset_name.len()` in Rust is the UTF-8 byte length.) -/
def validateAssetNames : List (String × Int) → Except String Unit
  | [] => .ok ()
  | (asset_name, _) :: rest =>
    if asset_name.utf8ByteSize > 64 || !(validate_hex_string asset_name) then
      .error ("Invalid asset name: " ++ asset_name)
    else
      validateAssetNames rest

/-- Outer loop of Rust `validate_value`: each policy id is exactly 56 bytes of
hex, maps to a non-empty asset map, and every asset name passes
`validateAssetNames`. -/
def validatePolicies : List (String × List (String × Int)) → Except String Unit
  | [] => .ok ()
  | (policy_id, assets) :: rest =>
    if !(policy_id.utf8ByteSize == 56) || !(validate_hex_string policy_id) then
      .error ("Invalid Policy ID: " ++ policy_id)
    else if assets.isEmpty then
      .error ("Asset map for policy " ++ policy_id ++ " cannot be empty")
    else
      match validateAssetNames assets with
      | .error e => .error e
      | .ok _ => validatePolicies rest

/-- Rust `validate_value`. -/
def validate_value (v : Value) : Except String Unit :=
  validatePolicies v.assets

/-- One `if let Some(Some(x)) = field { if !validate_hex_string(x) ... }`
check from the Rust validation loop: only a doubly-present value is checked. -/
def checkOptHex (field : Option (Option String)) (err : String) : Except String Unit :=
  match field with
  | some (some s) => if !(validate_hex_string s) then .error err else .ok ()
  | _ => .ok ()

/-- The `if let Some(Some(script)) = &tx_out.reference_script` check from the
Rust validation loop, with its `map_err` message. -/
def checkRefScript (utxo_ref : String) (rs : Option (Option Script)) : Except String Unit :=
  match rs with
  | some (some script) =>
    match validate_script script with
    | .error e => .error ("Failed to validate script in UTxO " ++ utxo_ref ++ ": " ++ e)
    | .ok _ => .ok ()
  | _ => .ok ()

/-- The body of the per-entry loop of Rust `validate_json`, in source order:
key regex, non-empty address, `validate_value` (with its `map_err` message,
including the source's `UtxO` spelling), reference script, then the three
hex-checked datum fields.  `inline_datum` and `inline_datum_raw` are not
checked, exactly as in the source. -/
def validateEntry (utxo_ref : String) (tx_out : TxOut) : Except String Unit :=
  if !(key_regex_match utxo_ref) then
    .error ("Invalid UTxO ref: " ++ utxo_ref)
  else if tx_out.address.isEmpty then
    .error ("Empty address in UTxO: " ++ utxo_ref)
  else
    match validate_value tx_out.value with
    | .error e => .error ("Failed to validate value in UtxO " ++ utxo_ref ++ ": " ++ e)
    | .ok _ =>
      match checkRefScript utxo_ref tx_out.reference_script with
      | .error e => .error e
      | .ok _ =>
        match checkOptHex tx_out.datumhash ("Invalid datumhash format in UTxO: " ++ utxo_ref) with
        | .error e => .error e
        | .ok _ =>
          match checkOptHex tx_out.inline_datumhash
              ("Invalid inline_datumhash format in UTxO: " ++ utxo_ref) with
          | .error e => .error e
          | .ok _ =>
            checkOptHex tx_out.datum ("Invalid datum format in UTxO: " ++ utxo_ref)

/-- The entry iteration of Rust `validate_json`, short-circuiting at the
first failing entry. -/
def validateEntries : UTxO → Except String Unit
  | [] => .ok ()
  | (utxo_ref, tx_out) :: rest =>
    match validateEntry utxo_ref tx_out with
    | .error e => .error e
    | .ok _ => validateEntries rest

/-! ### The serde-derived deserializer, on `Json` trees

`validate_json` in the source first runs `serde_json::from_str`; we embed the
resulting deserializer at the level of already-lexed `Json` trees.  Field
lookup ignores unknown keys (serde's default: no `deny_unknown_fields`), and
serde's renaming attributes are applied exactly as derived from the structs. -/

/-- Look up a required struct field by its JSON name; a missing field is a
deserialization error, as for a serde field without `default`. -/
def reqField (fields : List (String × Json)) (name : String) : Except String Json :=
  match fields.lookup name with
  | some j => .ok j
  | none => .error ("missing field " ++ name)

/-- Deserialize a Rust `String`. -/
def parseString : Json → Except String String
  | .str s => .ok s
  | _ => .error "invalid type: expected a string"

/-- Deserialize a Rust `u64` (`lovelace`). -/
def parseU64 : Json → Except String Nat
  | .num n => if 0 ≤ n ∧ n < 2 ^ 64 then .ok n.toNat else .error "invalid value: expected u64"
  | _ => .error "invalid type: expected u64"

/-- Deserialize a Rust `i64` (asset quantity). -/
def parseI64 : Json → Except String Int
  | .num n =>
    if -(2 ^ 63) ≤ n ∧ n < 2 ^ 63 then .ok n else .error "invalid value: expected i64"
  | _ => .error "invalid type: expected i64"

/-- Deserialize `ScriptType`: because of `serde(rename_all = "camelCase")`
the accepted tag strings are the camelCase variant names, and any other
string (or non-string) is a deserialization error. -/
def parseScriptType : Json → Except String ScriptType
  | .str s =>
    if s == "simpleScript" then .ok .simpleScript
    else if s == "plutusScriptV1" then .ok .plutusScriptV1
    else if s == "plutusScriptV2" then .ok .plutusScriptV2
    else if s == "plutusScriptV3" then .ok .plutusScriptV3
    else .error ("unknown variant " ++ s)
  | _ => .error "invalid type: expected script type string"

/-- Deserialize `ScriptDetails` from its JSON field names `cbor_hex`,
`description` and `type`. -/
def parseScriptDetails : Json → Except String ScriptDetails
  | .obj fields => do
    let ch ← parseString (← reqField fields "cbor_hex")
    let d ← parseString (← reqField fields "description")
    let ty ← parseScriptType (← reqField fields "type")
    .ok ⟨ch, d, ty⟩
  | _ => .error "invalid type: expected script details object"

/-- Deserialize `Script` from its JSON field names `script_language` and
`script`. -/
def parseScript : Json → Except String Script
  | .obj fields => do
    let lang ← parseString (← reqField fields "script_language")
    let det ← parseScriptDetails (← reqField fields "script")
    .ok ⟨lang, det⟩
  | _ => .error "invalid type: expected script object"

/-- Whether a JSON value is `null`. -/
def Json.isNull : Json → Bool
  | .null => true
  | _ => false

/-- Deserialize one double-`Option` field of `TxOut`: an absent key is
`none`, a key present with `null` is `some none`, and a key present with any
other value runs the inner deserializer. -/
def parseOptOpt (α : Type) (inner : Json → Except String α)
    (fields : List (String × Json)) (name : String) : Except String (Option (Option α)) :=
  match fields.lookup name with
  | none => .ok none
  | some j =>
    if j.isNull then .ok (some none)
    else do
      let a ← inner j
      .ok (some (some a))

/-- Deserialize every value of an object, keeping the keys: the shape of
serde's map deserialization, shared by the top-level `HashMap<String, TxOut>`,
the flattened asset maps, and each inner `HashMap<String, i64>`. -/
def parseEntries (α : Type) (f : Json → Except String α) :
    List (String × Json) → Except String (List (String × α))
  | [] => .ok []
  | (k, j) :: rest => do
    let a ← f j
    let rs ← parseEntries α f rest
    .ok ((k, a) :: rs)

/-- Deserialize one flattened asset map `HashMap<String, i64>`. -/
def parseAssetMap : Json → Except String (List (String × Int))
  | .obj fields => parseEntries Int parseI64 fields
  | _ => .error "invalid type: expected asset map object"

/-- Deserialize `Value`: the declared `lovelace` field (defaulting to `0`
when absent, per `serde(default)`), and every other key flattened into the
`assets` map. -/
def parseValue : Json → Except String Value
  | .obj fields => do
    let l ← match fields.lookup "lovelace" with
      | none => .ok 0
      | some j => parseU64 j
    let assets ← parseEntries (List (String × Int)) parseAssetMap
      (fields.filter (fun p => p.1 != "lovelace"))
    .ok ⟨l, assets⟩
  | _ => .error "invalid type: expected value object"

/-- Deserialize `TxOut` from its snake_case JSON field names; unknown fields
are ignored. -/
def parseTxOut : Json → Except String TxOut
  | .obj fields => do
    let address ← parseString (← reqField fields "address")
    let value ← parseValue (← reqField fields "value")
    let rs ← parseOptOpt Script parseScript fields "reference_script"
    let dh ← parseOptOpt String parseString fields "datumhash"
    let idt ← parseOptOpt Json (fun j => .ok j) fields "inline_datum"
    let idh ← parseOptOpt String parseString fields "inline_datumhash"
    let idr ← parseOptOpt String parseString fields "inline_datum_raw"
    let dt ← parseOptOpt String parseString fields "datum"
    .ok ⟨address, value, rs, dh, idt, idh, idr, dt⟩
  | _ => .error "invalid type: expected tx out object"

/-- Deserialize the top-level `HashMap<String, TxOut>`. -/
def parseUTxO : Json → Except String UTxO
  | .obj fields => parseEntries TxOut parseTxOut fields
  | _ => .error "invalid type: expected a map"

/-- Rust `validate_json`, at the `Json`-tree level: deserialize, then run the
validation pass. -/
def validate_json (j : Json) : Except String Unit := do
  let u ← parseUTxO j
  validateEntries u

/-! ### The serde-derived serializer

Field names and order follow the struct declarations; outer-`none` optional
fields are skipped (`skip_serializing_if = "Option::is_none"`), inner `none`
serializes as `null`. -/

/-- Serialize `ScriptType` to its camelCase variant name. -/
def serializeScriptType : ScriptType → Json
  | .simpleScript => .str "simpleScript"
  | .plutusScriptV1 => .str "plutusScriptV1"
  | .plutusScriptV2 => .str "plutusScriptV2"
  | .plutusScriptV3 => .str "plutusScriptV3"

/-- Serialize `ScriptDetails`. -/
def serializeScriptDetails (d : ScriptDetails) : Json :=
  .obj [("cbor_hex", .str d.cbor_hex), ("description", .str d.description),
        ("type", serializeScriptType d.script_type)]

/-- Serialize `Script`. -/
def serializeScript (s : Script) : Json :=
  .obj [("script_language", .str s.script_language), ("script", serializeScriptDetails s.script)]

/-- Serialize one flattened asset map. -/
def serializeAssetMap (m : List (String × Int)) : Json :=
  .obj (m.map (fun p => (p.1, Json.num p.2)))

/-- Serialize `Value`: the `lovelace` field followed by the flattened asset
maps. -/
def serializeValue (v : Value) : Json :=
  .obj (("lovelace", Json.num (Int.ofNat v.lovelace)) ::
    v.assets.map (fun p => (p.1, serializeAssetMap p.2)))

/-- Serialize one double-`Option` field: skipped when absent, `null` when
present-but-null, the serialized value otherwise. -/
def optField (α : Type) (name : String) (ser : α → Json) :
    Option (Option α) → List (String × Json)
  | none => []
  | some none => [(name, Json.null)]
  | some (some x) => [(name, ser x)]

/-- The serialized field list of a `TxOut`: snake_case names in declaration
order, outer-`none` optional fields skipped. -/
def serializeTxOutFields (t : TxOut) : List (String × Json) :=
  ("address", Json.str t.address) :: ("value", serializeValue t.value) ::
    (optField Script "reference_script" serializeScript t.reference_script ++
     optField String "datumhash" Json.str t.datumhash ++
     optField Json "inline_datum" id t.inline_datum ++
     optField String "inline_datumhash" Json.str t.inline_datumhash ++
     optField String "inline_datum_raw" Json.str t.inline_datum_raw ++
     optField String "datum" Json.str t.datum)

/-- Serialize `TxOut`. -/
def serializeTxOut (t : TxOut) : Json :=
  .obj (serializeTxOutFields t)

/-- Serialize the top-level map. -/
def serializeUTxO (u : UTxO) : Json :=
  .obj (u.map (fun p => (p.1, serializeTxOut p.2)))

/-! ### General lemmas about the embedding -/

/-- `Except.bind` on a success just applies the continuation. -/
theorem except_bind_ok {α β : Type} (x : α) (f : α → Except String β) :
    (Except.ok x >>= f : Except String β) = f x := rfl

/-- An ASCII hex digit occupies one UTF-8 byte. -/
theorem utf8Size_one_of_hex (c : Char) (h : isAsciiHexdigit c = true) : c.utf8Size = 1 := by
  simp only [isAsciiHexdigit, Bool.or_eq_true, Bool.and_eq_true, decide_eq_true_eq] at h
  have hle : c.val.toNat ≤ 102 := by
    have step : ∀ a b : Char, a ≤ b → a.val.toNat ≤ b.val.toNat := by
      intro a b hab
      rw [Char.le_def, UInt32.le_def, BitVec.le_def] at hab
      exact hab
    rcases h with (⟨_, h2⟩ | ⟨_, h2⟩) | ⟨_, h2⟩ <;>
      exact le_trans (step _ _ h2) (by decide)
  unfold Char.utf8Size
  rw [if_pos]
  rw [UInt32.le_def, BitVec.le_def]
  exact le_trans hle (by decide)

/-- For a list of hex characters, the UTF-8 byte count is the character
count. -/
theorem utf8go_of_hex (l : List Char) (h : l.all isAsciiHexdigit = true) :
    String.utf8ByteSize.go l = l.length := by
  induction l with
  | nil => rfl
  | cons c cs ih =>
    simp only [List.all_cons, Bool.and_eq_true] at h
    rw [String.utf8ByteSize.go, ih h.2, utf8Size_one_of_hex c h.1, List.length_cons]

/-- Rust's byte-oriented `len()` agrees with the character count on all-hex
strings (hex digits are one byte each). -/
theorem utf8ByteSize_of_hex (s : String) (h : validate_hex_string s = true) :
    s.utf8ByteSize = s.data.length := by
  obtain ⟨data⟩ := s
  exact utf8go_of_hex data h

/-- A string other than `""` is not `isEmpty`. -/
theorem isEmpty_false_of_ne (s : String) (h : s ≠ "") : s.isEmpty = false := by
  cases he : s.isEmpty with
  | false => rfl
  | true => exact absurd ((String.isEmpty_iff s).mp he) h

/-! ### C2: the accepted script-type tags -/

/-- A 64-lowercase-hex reference key used by the concrete documents below. -/
def refKey : String := String.mk (List.replicate 64 'a') ++ "#0"

/-- A document whose reference script carries the PascalCase type tag
`"PlutusScriptV2"` (the spelling the spec declares accepted), everything else
well-formed and snake_case. -/
def pascalTypeDoc : Json :=
  .obj [(refKey, .obj [("address", .str "addr1"), ("value", .obj [("lovelace", .num 1000000)]),
    ("reference_script", .obj [("script_language", .str "PlutusV2"),
      ("script", .obj [("cbor_hex", .str "49480100002221200101"), ("description", .str ""),
        ("type", .str "PlutusScriptV2")])])])]

/-- C2 counterexample: the claim says a `"type"` field equal to
`"PlutusScriptV2"` (one of its four PascalCase strings) parses successfully;
on the code it is a parse error, because `serde(rename_all = "camelCase")`
renames the variant to `"plutusScriptV2"`. -/
theorem c2_counterexample :
    parseUTxO pascalTypeDoc = .error "unknown variant PlutusScriptV2" := rfl

/-- C2 (amended): the script-type tags accepted during parsing are exactly
the four camelCase strings `simpleScript`, `plutusScriptV1`,
`plutusScriptV2`, `plutusScriptV3`; every other string is a parse error. -/
theorem c2_amended (s : String) :
    (∃ t, parseScriptType (Json.str s) = Except.ok t) ↔
      s = "simpleScript" ∨ s = "plutusScriptV1" ∨ s = "plutusScriptV2" ∨ s = "plutusScriptV3" := by
  simp only [parseScriptType]
  split_ifs with h1 h2 h3 h4 <;> simp_all

/-- C2 witness: the amended characterization at the concrete tag
`"simpleScript"`. -/
theorem c2_amended_witness :
    (∃ t, parseScriptType (Json.str "simpleScript") = Except.ok t) ↔
      "simpleScript" = "simpleScript" ∨ "simpleScript" = "plutusScriptV1" ∨
      "simpleScript" = "plutusScriptV2" ∨ "simpleScript" = "plutusScriptV3" :=
  c2_amended "simpleScript"

/-! ### C1: the JSON field names read by the deserializer -/

/-- A `TxOut` object using the camelCase field names the spec declares
authoritative, with a `referenceScript` whose `scriptLanguage` is empty. -/
def camelTxOutJson : Json :=
  .obj [("address", .str "addr1"), ("value", .obj [("lovelace", .num 1000000)]),
    ("referenceScript", .obj [("scriptLanguage", .str ""),
      ("script", .obj [("cborHex", .str "49"), ("description", .str ""),
        ("type", .str "simpleScript")])])]

/-- The same document under its top-level key. -/
def camelDoc : Json := .obj [(refKey, camelTxOutJson)]

/-- The snake_case spelling of the same document (the names the Rust structs
actually declare), still with an empty script language. -/
def snakeDoc : Json :=
  .obj [(refKey, .obj [("address", .str "addr1"), ("value", .obj [("lovelace", .num 1000000)]),
    ("reference_script", .obj [("script_language", .str ""),
      ("script", .obj [("cbor_hex", .str "49"), ("description", .str ""),
        ("type", .str "simpleScript")])])])]

/-- C1 counterexample: the claim says a camelCase `referenceScript` with
empty `scriptLanguage` fails validation; on the code the whole document
validates successfully, because the structs declare snake_case JSON names
and the camelCase key is ignored as an unknown field. -/
theorem c1_counterexample : validate_json camelDoc = .ok () := rfl

/-- C1 (amended): the deserializer reads `TxOut`, `Script` and
`ScriptDetails` fields by their snake_case Rust names; a camelCase
`referenceScript` is ignored as an unknown field (the parsed entry has no
reference script, so its empty `scriptLanguage` is never checked), while the
snake_case spelling of the same document is parsed and fails validation on
the empty language tag. -/
theorem c1_amended :
    parseTxOut camelTxOutJson =
      .ok ⟨"addr1", ⟨1000000, []⟩, none, none, none, none, none, none⟩ ∧
    validate_json snakeDoc =
      .error ("Failed to validate script in UTxO " ++ refKey ++ ": Script language cannot be empty") :=
  ⟨rfl, rfl⟩

/-! ### C10: the empty string is accepted as hex -/

/-- C10: `validate_hex_string` returns `true` on `""` (the Rust `all` over an
empty iterator), so a present-but-empty `datumhash` / `inline_datumhash` /
`datum` passes its check unconditionally, and an empty `cbor_hex` passes the
script hex check (the script still needs a non-empty language tag). -/
theorem c10_empty_hex :
    validate_hex_string "" = true ∧
    (∀ err, checkOptHex (some (some "")) err = .ok ()) ∧
    (∀ lang d ty, lang ≠ "" → validate_script ⟨lang, ⟨"", d, ty⟩⟩ = .ok ()) := by
  refine ⟨rfl, fun err => rfl, fun lang d ty h => ?_⟩
  have hl : lang.isEmpty = false := isEmpty_false_of_ne lang h
  simp [validate_script, hl, show validate_hex_string "" = true from rfl]

/-- C10 witness: the empty-hex facts at concrete inputs. -/
theorem c10_empty_hex_witness :
    validate_hex_string "" = true ∧
    checkOptHex (some (some "")) "e" = .ok () ∧
    ("x" : String) ≠ "" ∧
    validate_script ⟨"x", ⟨"", "d", ScriptType.simpleScript⟩⟩ = .ok () :=
  ⟨c10_empty_hex.1, c10_empty_hex.2.1 "e", by decide,
    c10_empty_hex.2.2 "x" "d" ScriptType.simpleScript (by decide)⟩

/-! ### Decomposing a successful entry validation -/

/-- An entry validates successfully exactly when each of its checks passes:
the key regex, the non-empty address, the value bundle, the reference script,
and the three hex-checked datum fields. -/
theorem validateEntry_ok_iff (utxo_ref : String) (t : TxOut) :
    validateEntry utxo_ref t = .ok () ↔
      key_regex_match utxo_ref = true ∧ t.address.isEmpty = false ∧
      validate_value t.value = .ok () ∧
      checkRefScript utxo_ref t.reference_script = .ok () ∧
      checkOptHex t.datumhash ("Invalid datumhash format in UTxO: " ++ utxo_ref) = .ok () ∧
      checkOptHex t.inline_datumhash
        ("Invalid inline_datumhash format in UTxO: " ++ utxo_ref) = .ok () ∧
      checkOptHex t.datum ("Invalid datum format in UTxO: " ++ utxo_ref) = .ok () := by
  unfold validateEntry
  cases hk : key_regex_match utxo_ref <;>
  cases ha : t.address.isEmpty <;>
  cases hv : validate_value t.value <;>
  cases hr : checkRefScript utxo_ref t.reference_script <;>
  cases h1 : checkOptHex t.datumhash ("Invalid datumhash format in UTxO: " ++ utxo_ref) <;>
  cases h2 : checkOptHex t.inline_datumhash
    ("Invalid inline_datumhash format in UTxO: " ++ utxo_ref) <;>
  cases h3 : checkOptHex t.datum ("Invalid datum format in UTxO: " ++ utxo_ref) <;>
  simp_all

/-! ### C5: tri-state optional fields -/

/-- C5: in an otherwise-valid entry, `datumhash` absent (`none`) or null
(`some none`) never produces an error, while `datumhash` present as the
non-hex `"zz"` fails validation; the same absent/null/present treatment
holds for `inline_datumhash`, `datum` and `reference_script`. -/
theorem c5_tri_state (utxo_ref : String) (t : TxOut)
    (h : validateEntry utxo_ref t = .ok ()) :
    validateEntry utxo_ref { t with datumhash := none } = .ok () ∧
    validateEntry utxo_ref { t with datumhash := some none } = .ok () ∧
    validateEntry utxo_ref { t with datumhash := some (some "zz") } =
      .error ("Invalid datumhash format in UTxO: " ++ utxo_ref) ∧
    validateEntry utxo_ref { t with inline_datumhash := none } = .ok () ∧
    validateEntry utxo_ref { t with inline_datumhash := some none } = .ok () ∧
    validateEntry utxo_ref { t with inline_datumhash := some (some "zz") } =
      .error ("Invalid inline_datumhash format in UTxO: " ++ utxo_ref) ∧
    validateEntry utxo_ref { t with datum := none } = .ok () ∧
    validateEntry utxo_ref { t with datum := some none } = .ok () ∧
    validateEntry utxo_ref { t with datum := some (some "zz") } =
      .error ("Invalid datum format in UTxO: " ++ utxo_ref) ∧
    validateEntry utxo_ref { t with reference_script := none } = .ok () ∧
    validateEntry utxo_ref { t with reference_script := some none } = .ok () := by
  obtain ⟨hk, ha, hv, hr, h1, h2, h3⟩ := (validateEntry_ok_iff utxo_ref t).mp h
  have hzz : validate_hex_string "zz" = false := rfl
  refine ⟨?_, ?_, ?_, ?_, ?_, ?_, ?_, ?_, ?_, ?_, ?_⟩ <;>
    simp_all [validateEntry, checkOptHex, checkRefScript]

/-- A minimal entry value that passes every check. -/
def okTxOut : TxOut := ⟨"addr1", ⟨1000000, []⟩, none, none, none, none, none, none⟩

/-- C5 witness: the tri-state facts at a concrete valid entry. -/
theorem c5_tri_state_witness :
    validateEntry refKey okTxOut = .ok () ∧
    (validateEntry refKey { okTxOut with datumhash := none } = .ok () ∧
     validateEntry refKey { okTxOut with datumhash := some none } = .ok () ∧
     validateEntry refKey { okTxOut with datumhash := some (some "zz") } =
       .error ("Invalid datumhash format in UTxO: " ++ refKey) ∧
     validateEntry refKey { okTxOut with inline_datumhash := none } = .ok () ∧
     validateEntry refKey { okTxOut with inline_datumhash := some none } = .ok () ∧
     validateEntry refKey { okTxOut with inline_datumhash := some (some "zz") } =
       .error ("Invalid inline_datumhash format in UTxO: " ++ refKey) ∧
     validateEntry refKey { okTxOut with datum := none } = .ok () ∧
     validateEntry refKey { okTxOut with datum := some none } = .ok () ∧
     validateEntry refKey { okTxOut with datum := some (some "zz") } =
       .error ("Invalid datum format in UTxO: " ++ refKey) ∧
     validateEntry refKey { okTxOut with reference_script := none } = .ok () ∧
     validateEntry refKey { okTxOut with reference_script := some none } = .ok ()) :=
  ⟨rfl, c5_tri_state refKey okTxOut rfl⟩

/-! ### Prefix lemmas: validation passes over already-valid entries -/

/-- Appending after a run of valid entries: the loop reaches the tail. -/
theorem validateEntries_append_of_ok (pre rest : UTxO)
    (h : ∀ e ∈ pre, validateEntry e.1 e.2 = .ok ()) :
    validateEntries (pre ++ rest) = validateEntries rest := by
  induction pre with
  | nil => rfl
  | cons x xs ih =>
    obtain ⟨k, t⟩ := x
    have hx : validateEntry k t = .ok () := h (k, t) (List.mem_cons_self _ _)
    rw [List.cons_append]
    simp only [validateEntries, hx]
    exact ih (fun e he => h e (List.mem_cons_of_mem _ he))

/-- Appending after a run of valid policies: the loop reaches the tail. -/
theorem validatePolicies_append_of_ok (pre rest : List (String × List (String × Int)))
    (h : validatePolicies pre = .ok ()) :
    validatePolicies (pre ++ rest) = validatePolicies rest := by
  induction pre with
  | nil => rfl
  | cons x xs ih =>
    obtain ⟨p, m⟩ := x
    rw [List.cons_append]
    simp only [validatePolicies] at h ⊢
    split_ifs at h ⊢
    cases han : validateAssetNames m with
    | error e => rw [han] at h; simp at h
    | ok u => simp only [han] at h ⊢; exact ih h

/-! ### C4: invalid reference keys -/

/-- C4: when every entry before it validates, an entry whose key fails the
`hash#index` regex aborts validation with an error carrying the offending
key verbatim. -/
theorem c4_invalid_reference (pre post : UTxO) (k : String) (t : TxOut)
    (hpre : ∀ e ∈ pre, validateEntry e.1 e.2 = .ok ())
    (hk : key_regex_match k = false) :
    validateEntries (pre ++ (k, t) :: post) = .error ("Invalid UTxO ref: " ++ k) := by
  rw [validateEntries_append_of_ok pre _ hpre]
  simp [validateEntries, validateEntry, hk]

/-- The all-uppercase spelling of `refKey`: rejected, because the key
pattern accepts lowercase hash characters only. -/
def keyUpper : String := String.mk (List.replicate 64 'A') ++ "#0"

/-- C4 witness: a snapshot whose first entry is valid and whose second key
has an uppercase hash portion fails with the key named verbatim. -/
theorem c4_invalid_reference_witness :
    (∀ e ∈ [(refKey, okTxOut)], validateEntry e.1 e.2 = .ok ()) ∧
    key_regex_match keyUpper = false ∧
    validateEntries ([(refKey, okTxOut)] ++ (keyUpper, okTxOut) :: []) =
      .error ("Invalid UTxO ref: " ++ keyUpper) := by
  have hpre : ∀ e ∈ [(refKey, okTxOut)], validateEntry e.1 e.2 = .ok () := by
    intro e he
    rw [List.mem_singleton] at he
    subst he
    rfl
  exact ⟨hpre, rfl, c4_invalid_reference [(refKey, okTxOut)] [] keyUpper okTxOut hpre rfl⟩

/-! ### C6: empty asset maps -/

/-- C6: an entry whose value maps a well-formed 56-hex policy id to an empty
asset map fails with the empty-asset-map error, even when every entry before
it, every policy before it, and the entry's other checks all pass. -/
theorem c6_empty_asset_map (pre post : UTxO) (k : String) (t : TxOut) (p : String)
    (apre apost : List (String × List (String × Int)))
    (hpre : ∀ e ∈ pre, validateEntry e.1 e.2 = .ok ())
    (hk : key_regex_match k = true) (ha : t.address.isEmpty = false)
    (hassets : t.value.assets = apre ++ (p, []) :: apost)
    (hapre : validatePolicies apre = .ok ())
    (hp : p.data.length = 56) (hphex : validate_hex_string p = true) :
    validateEntries (pre ++ (k, t) :: post) =
      .error ("Failed to validate value in UtxO " ++ k ++ ": " ++
        ("Asset map for policy " ++ p ++ " cannot be empty")) := by
  rw [validateEntries_append_of_ok pre _ hpre]
  have hpb : p.utf8ByteSize = 56 := by rw [utf8ByteSize_of_hex p hphex, hp]
  have hval : validate_value t.value =
      .error ("Asset map for policy " ++ p ++ " cannot be empty") := by
    rw [validate_value, hassets, validatePolicies_append_of_ok _ _ hapre]
    simp [validatePolicies, hpb, hphex]
  simp [validateEntries, validateEntry, hk, ha, hval]

/-- A 56-hex policy id made of `b`s. -/
def policyB : String := String.mk (List.replicate 56 'b')

/-- An otherwise-valid entry whose single policy has an empty asset map. -/
def emptyAssetTxOut : TxOut := ⟨"addr1", ⟨5, [(policyB, [])]⟩, none, none, none, none, none, none⟩

/-- C6 witness: the empty-asset-map failure at a concrete snapshot. -/
theorem c6_empty_asset_map_witness :
    key_regex_match refKey = true ∧
    emptyAssetTxOut.address.isEmpty = false ∧
    emptyAssetTxOut.value.assets = [] ++ (policyB, []) :: [] ∧
    validatePolicies [] = .ok () ∧
    policyB.data.length = 56 ∧
    validate_hex_string policyB = true ∧
    validateEntries ([] ++ (refKey, emptyAssetTxOut) :: []) =
      .error ("Failed to validate value in UtxO " ++ refKey ++ ": " ++
        ("Asset map for policy " ++ policyB ++ " cannot be empty")) :=
  ⟨rfl, rfl, rfl, rfl, rfl, rfl,
    c6_empty_asset_map [] [] refKey emptyAssetTxOut policyB [] []
      (fun e he => absurd he (List.not_mem_nil e)) rfl rfl rfl rfl rfl rfl⟩

/-! ### C7: the 64-character asset-name boundary -/

/-- C7: with a well-formed policy id, an asset name of exactly 64 hex
characters passes `validate_value`, and one of 65 hex characters fails with
the invalid-asset-name error naming it. -/
theorem c7_asset_name_boundary (lovelace : Nat) (p n64 n65 : String) (q64 q65 : Int)
    (hp : p.data.length = 56) (hphex : validate_hex_string p = true)
    (h64 : n64.data.length = 64) (h64hex : validate_hex_string n64 = true)
    (h65 : n65.data.length = 65) (h65hex : validate_hex_string n65 = true) :
    validate_value ⟨lovelace, [(p, [(n64, q64)])]⟩ = .ok () ∧
    validate_value ⟨lovelace, [(p, [(n65, q65)])]⟩ =
      .error ("Invalid asset name: " ++ n65) := by
  have hpb : p.utf8ByteSize = 56 := by rw [utf8ByteSize_of_hex p hphex, hp]
  have h64b : n64.utf8ByteSize = 64 := by rw [utf8ByteSize_of_hex _ h64hex, h64]
  have h65b : n65.utf8ByteSize = 65 := by rw [utf8ByteSize_of_hex _ h65hex, h65]
  constructor <;>
    simp [validate_value, validatePolicies, validateAssetNames, hpb, h64b, h65b,
      hphex, h64hex, h65hex]

/-- A 64-hex asset name. -/
def name64 : String := String.mk (List.replicate 64 'c')

/-- A 65-hex asset name (one past the boundary). -/
def name65 : String := String.mk (List.replicate 65 'c')

/-- C7 witness: the boundary at concrete 64- and 65-character names. -/
theorem c7_asset_name_boundary_witness :
    policyB.data.length = 56 ∧ validate_hex_string policyB = true ∧
    name64.data.length = 64 ∧ validate_hex_string name64 = true ∧
    name65.data.length = 65 ∧ validate_hex_string name65 = true ∧
    (validate_value ⟨7, [(policyB, [(name64, 5)])]⟩ = .ok () ∧
     validate_value ⟨7, [(policyB, [(name65, 5)])]⟩ =
       .error ("Invalid asset name: " ++ name65)) :=
  ⟨rfl, rfl, rfl, rfl, rfl, rfl,
    c7_asset_name_boundary 7 policyB name64 name65 5 5 rfl rfl rfl rfl rfl rfl⟩

/-! ### C3: the seven spec invariants imply validation success

The invariant predicates below follow the spec's wording (invariants 1-7 of
its data-model section) and are compared against the validator from the
source; `specInvariantsEntry` is the spec side of the refinement. -/

/-- Spec invariant 6 for one optional hex-bearing field: when present (and
non-null) it is all hex. -/
def specOptHex : Option (Option String) → Bool
  | some (some s) => validate_hex_string s
  | _ => true

/-- Spec invariants 6 and 7 for a present reference script: the CBOR payload
is hex and the language tag non-empty. -/
def specRefScript : Option (Option Script) → Bool
  | some (some sc) => validate_hex_string sc.script.cbor_hex && !(sc.script_language == "")
  | _ => true

/-- Spec invariants 1-7 for one snapshot entry: the key matches the
hash#index pattern, the address is non-empty, every policy id is exactly 56
hex characters, every per-policy asset map is non-empty, every asset name is
at most 64 hex characters, every present hex-bearing field is all hex, and a
present reference script has a non-empty language tag. -/
def specInvariantsEntry (k : String) (t : TxOut) : Bool :=
  key_regex_match k &&
  !(t.address == "") &&
  t.value.assets.all (fun pa =>
    (pa.1.data.length == 56) && validate_hex_string pa.1 &&
    !pa.2.isEmpty &&
    pa.2.all (fun a => decide (a.1.data.length ≤ 64) && validate_hex_string a.1)) &&
  specRefScript t.reference_script &&
  specOptHex t.datumhash && specOptHex t.inline_datumhash && specOptHex t.datum

/-- Spec invariants 1-7 over a whole snapshot. -/
def specInvariants (s : UTxO) : Bool :=
  s.all (fun e => specInvariantsEntry e.1 e.2)

/-- Asset names that satisfy the spec bound pass the code's name loop. -/
theorem validateAssetNames_ok_of_spec (m : List (String × Int))
    (h : m.all (fun a => decide (a.1.data.length ≤ 64) && validate_hex_string a.1) = true) :
    validateAssetNames m = .ok () := by
  induction m with
  | nil => rfl
  | cons a rest ih =>
    simp only [List.all_cons, Bool.and_eq_true] at h
    obtain ⟨ha, hrest⟩ := h
    have hlen : a.1.data.length ≤ 64 := by
      have := ha.1
      simpa using this
    have hhex : validate_hex_string a.1 = true := ha.2
    have hb : a.1.utf8ByteSize = a.1.data.length := utf8ByteSize_of_hex _ hhex
    have hcond : (decide (a.1.utf8ByteSize > 64) || !(validate_hex_string a.1)) = false := by
      have hble : a.1.utf8ByteSize ≤ 64 := by rw [hb]; exact hlen
      rw [hhex]
      simp only [Bool.not_true, Bool.or_false, decide_eq_false_iff_not, gt_iff_lt, not_lt]
      exact hble
    simp only [validateAssetNames, hcond, Bool.false_eq_true, if_false]
    exact ih hrest

/-- Policies that satisfy the spec invariants pass the code's policy loop. -/
theorem validatePolicies_ok_of_spec (l : List (String × List (String × Int)))
    (h : l.all (fun pa =>
      (pa.1.data.length == 56) && validate_hex_string pa.1 &&
      !pa.2.isEmpty &&
      pa.2.all (fun a => decide (a.1.data.length ≤ 64) && validate_hex_string a.1)) = true) :
    validatePolicies l = .ok () := by
  induction l with
  | nil => rfl
  | cons pa rest ih =>
    simp only [List.all_cons, Bool.and_eq_true] at h
    obtain ⟨⟨⟨hlen, hhex⟩, hne⟩, hnames⟩ := h.1
    have hb : pa.1.utf8ByteSize = pa.1.data.length := utf8ByteSize_of_hex _ hhex
    have hlen' : pa.1.data.length = 56 := by simpa using hlen
    have hcond : (!(pa.1.utf8ByteSize == 56) || !(validate_hex_string pa.1)) = false := by
      rw [hb, hlen', hhex]
      simp
    have hne' : pa.2.isEmpty = false := by
      cases hie : pa.2.isEmpty
      · rfl
      · rw [hie] at hne; simp at hne
    simp only [validatePolicies, hcond, Bool.false_eq_true, if_false, hne',
      validateAssetNames_ok_of_spec pa.2 hnames]
    exact ih h.2

/-- An entry that satisfies the spec invariants passes every code check. -/
theorem validateEntry_ok_of_spec (k : String) (t : TxOut)
    (h : specInvariantsEntry k t = true) : validateEntry k t = .ok () := by
  simp only [specInvariantsEntry, Bool.and_eq_true] at h
  obtain ⟨⟨⟨⟨⟨⟨hk, haddr⟩, hval⟩, hrs⟩, h1⟩, h2⟩, h3⟩ := h
  refine (validateEntry_ok_iff k t).mpr ⟨hk, ?_, ?_, ?_, ?_, ?_, ?_⟩
  · have hne : t.address ≠ "" := by simpa using haddr
    exact isEmpty_false_of_ne _ hne
  · exact validatePolicies_ok_of_spec _ hval
  · cases hcase : t.reference_script with
    | none => rfl
    | some o =>
      cases o with
      | none => rfl
      | some sc =>
        rw [hcase] at hrs
        simp only [specRefScript, Bool.and_eq_true] at hrs
        obtain ⟨hhex, hlang⟩ := hrs
        have hne : sc.script_language ≠ "" := by simpa using hlang
        simp [checkRefScript, validate_script, hhex, isEmpty_false_of_ne _ hne]
  · cases hcase : t.datumhash with
    | none => rfl
    | some o =>
      cases o with
      | none => rfl
      | some s =>
        rw [hcase] at h1
        simp only [specOptHex] at h1
        simp [checkOptHex, h1]
  · cases hcase : t.inline_datumhash with
    | none => rfl
    | some o =>
      cases o with
      | none => rfl
      | some s =>
        rw [hcase] at h2
        simp only [specOptHex] at h2
        simp [checkOptHex, h2]
  · cases hcase : t.datum with
    | none => rfl
    | some o =>
      cases o with
      | none => rfl
      | some s =>
        rw [hcase] at h3
        simp only [specOptHex] at h3
        simp [checkOptHex, h3]

/-- C3: every snapshot satisfying the seven spec invariants validates
successfully. -/
theorem c3_valid_snapshots (s : UTxO) (h : specInvariants s = true) :
    validateEntries s = .ok () := by
  induction s with
  | nil => rfl
  | cons x xs ih =>
    obtain ⟨k, t⟩ := x
    simp only [specInvariants, List.all_cons, Bool.and_eq_true] at h
    obtain ⟨hx, hxs⟩ := h
    simp only [validateEntries, validateEntry_ok_of_spec k t hx]
    exact ih hxs

/-- A fully featured entry: lovelace, one policy with one asset, a reference
script, a hex datumhash, an arbitrary inline datum, a null inline datumhash
and a hex datum. -/
def richTxOut : TxOut :=
  ⟨"addr1", ⟨2, [(policyB, [(name64, 3)])]⟩,
    some (some ⟨"PlutusV2", ⟨"4948", "d", .plutusScriptV2⟩⟩),
    some (some "deadbeef"), some (some (.num 1)), some none, none, some (some "00")⟩

/-- C3 witness: a concrete snapshot satisfying all seven invariants
validates successfully. -/
theorem c3_valid_snapshots_witness :
    specInvariants [(refKey, richTxOut)] = true ∧
    validateEntries [(refKey, richTxOut)] = .ok () :=
  ⟨rfl, c3_valid_snapshots [(refKey, richTxOut)] rfl⟩

/-! ### C9: unknown fields are ignored -/

/-- Inserting a binding for one key changes no lookups of other keys. -/
theorem lookup_middle {β : Type} (pre post : List (String × β)) (name k : String) (v : β)
    (h : (k == name) = false) :
    List.lookup k (pre ++ (name, v) :: post) = List.lookup k (pre ++ post) := by
  induction pre with
  | nil => simp [List.lookup, h]
  | cons x xs ih =>
    obtain ⟨k', v'⟩ := x
    cases hk : (k == k') <;> simp [List.lookup, hk, ih]

/-- The JSON names of the declared `TxOut` struct fields. -/
def txOutFieldNames : List String :=
  ["address", "value", "reference_script", "datumhash", "inline_datum",
   "inline_datumhash", "inline_datum_raw", "datum"]

/-- A field with an unrecognized name is invisible to the `TxOut`
deserializer (serde ignores unknown fields by default). -/
theorem parseTxOut_ignores_unknown (fpre fpost : List (String × Json)) (name : String) (v : Json)
    (h : name ∉ txOutFieldNames) :
    parseTxOut (.obj (fpre ++ (name, v) :: fpost)) = parseTxOut (.obj (fpre ++ fpost)) := by
  simp only [txOutFieldNames, List.mem_cons, List.not_mem_nil, or_false, not_or] at h
  obtain ⟨h1, h2, h3, h4, h5, h6, h7, h8⟩ := h
  have f : ∀ fname : String, fname ≠ name →
      List.lookup fname (fpre ++ (name, v) :: fpost) = List.lookup fname (fpre ++ fpost) := by
    intro fname hf
    exact lookup_middle fpre fpost name fname v (by simpa using hf)
  simp only [parseTxOut, reqField, parseOptOpt,
    f "address" (Ne.symm h1), f "value" (Ne.symm h2), f "reference_script" (Ne.symm h3),
    f "datumhash" (Ne.symm h4), f "inline_datum" (Ne.symm h5),
    f "inline_datumhash" (Ne.symm h6), f "inline_datum_raw" (Ne.symm h7),
    f "datum" (Ne.symm h8)]

/-- C9: adding a field with an unrecognized name (and any value) to a
`TxOut` object changes neither the parse outcome nor the validation result
of the whole document. -/
theorem c9_unknown_field_ignored (dpre dpost : List (String × Json)) (k : String)
    (fpre fpost : List (String × Json)) (name : String) (v : Json)
    (h : name ∉ txOutFieldNames) :
    validate_json (.obj (dpre ++ (k, .obj (fpre ++ (name, v) :: fpost)) :: dpost)) =
      validate_json (.obj (dpre ++ (k, .obj (fpre ++ fpost)) :: dpost)) := by
  have ht := parseTxOut_ignores_unknown fpre fpost name v h
  have hp : ∀ dp : List (String × Json),
      parseEntries TxOut parseTxOut (dp ++ (k, Json.obj (fpre ++ (name, v) :: fpost)) :: dpost) =
      parseEntries TxOut parseTxOut (dp ++ (k, Json.obj (fpre ++ fpost)) :: dpost) := by
    intro dp
    induction dp with
    | nil => simp only [List.nil_append, parseEntries, ht]
    | cons d ds ih =>
      obtain ⟨dk, dj⟩ := d
      simp only [List.cons_append, parseEntries, List.append_eq, ih]
  unfold validate_json
  simp only [parseUTxO, hp dpre]

/-- C9 witness: adding `extraField` to a concrete valid entry changes
nothing. -/
theorem c9_unknown_field_ignored_witness :
    ("extraField" ∉ txOutFieldNames) ∧
    validate_json (.obj ([] ++ (refKey, Json.obj ([("address", Json.str "addr1")] ++
        ("extraField", Json.bool true) :: [("value", Json.obj [])])) :: [])) =
      validate_json (.obj ([] ++ (refKey, Json.obj ([("address", Json.str "addr1")] ++
        [("value", Json.obj [])])) :: [])) :=
  ⟨by decide, c9_unknown_field_ignored [] [] refKey [("address", Json.str "addr1")]
      [("value", Json.obj [])] "extraField" (Json.bool true) (by decide)⟩

/-! ### C8: round-tripping a validated snapshot

A snapshot obtained by parsing satisfies the well-formedness facts below
(numeric ranges imposed by the Rust `u64`/`i64` types, and no
present-with-`null` inline datum, which the parser maps to `some none`);
a snapshot that validates has no `"lovelace"` policy key (policy ids are 56
characters).  Under those facts, serializing and re-parsing is the
identity, so re-validation succeeds. -/

/-- `Except.bind` on an error propagates the error. -/
theorem except_bind_error {α β : Type} (e : String) (f : α → Except String β) :
    (Except.error e >>= f : Except String β) = .error e := rfl

/-- Values produced by a successful `parseEntries` are produced by the
element parser, so they inherit any property of its successes. -/
theorem parseEntries_forall {α : Type} (P : α → Prop) (f : Json → Except String α)
    (hf : ∀ j a, f j = .ok a → P a) (l : List (String × Json)) (res : List (String × α))
    (h : parseEntries α f l = .ok res) : ∀ b ∈ res, P b.2 := by
  induction l generalizing res with
  | nil =>
    simp only [parseEntries] at h
    cases h
    intro b hb
    exact absurd hb (List.not_mem_nil b)
  | cons x xs ih =>
    obtain ⟨k, j⟩ := x
    simp only [parseEntries] at h
    cases hj : f j with
    | error e => simp only [hj, except_bind_error] at h; exact Except.noConfusion h
    | ok a =>
      simp only [hj, except_bind_ok] at h
      cases hrest : parseEntries α f xs with
      | error e => simp only [hrest, except_bind_error] at h; exact Except.noConfusion h
      | ok rs =>
        simp only [hrest, except_bind_ok] at h
        cases h
        intro b hb
        rcases List.mem_cons.mp hb with rfl | hmem
        · exact hf j a hj
        · exact ih rs hrest b hmem

/-- `parseEntries` undoes a per-value serialization that the element parser
undoes. -/
theorem parseEntries_roundtrip {α : Type} (f : Json → Except String α) (ser : α → Json)
    (l : List (String × α)) (h : ∀ b ∈ l, f (ser b.2) = .ok b.2) :
    parseEntries α f (l.map (fun p => (p.1, ser p.2))) = .ok l := by
  induction l with
  | nil => rfl
  | cons x xs ih =>
    simp only [List.map_cons, parseEntries]
    rw [h x (List.mem_cons_self _ _), except_bind_ok,
      ih (fun b hb => h b (List.mem_cons_of_mem _ hb)), except_bind_ok]

/-- `parseU64` successes fit in 64 bits. -/
theorem parseU64_lt (j : Json) (l : Nat) (h : parseU64 j = .ok l) : l < 2 ^ 64 := by
  cases j <;> try exact Except.noConfusion h
  case num n =>
    simp only [parseU64] at h
    split_ifs at h with hr
    cases h
    omega

/-- `parseI64` successes fit in a signed 64-bit range. -/
theorem parseI64_range (j : Json) (q : Int) (h : parseI64 j = .ok q) :
    -(2 ^ 63) ≤ q ∧ q < 2 ^ 63 := by
  cases j <;> try exact Except.noConfusion h
  case num n =>
    simp only [parseI64] at h
    split_ifs at h with hr
    cases h
    exact hr

/-- Every quantity of an asset map fits in the `i64` range. -/
def wfAssetMap (m : List (String × Int)) : Prop :=
  ∀ a ∈ m, -(2 ^ 63) ≤ a.2 ∧ a.2 < 2 ^ 63

/-- The ranges imposed on a `Value` by the Rust numeric types. -/
def wfValue (v : Value) : Prop :=
  v.lovelace < 2 ^ 64 ∧ ∀ pa ∈ v.assets, wfAssetMap pa.2

/-- What parsing guarantees about a `TxOut`: its value is in range and its
inline datum is never present-with-`null` (the parser maps a `null` field to
`some none`). -/
def wfTxOut (t : TxOut) : Prop :=
  wfValue t.value ∧ ∀ jd, t.inline_datum = some (some jd) → jd ≠ Json.null

/-- Asset maps produced by the parser are in range. -/
theorem parseAssetMap_wf (j : Json) (m : List (String × Int))
    (h : parseAssetMap j = .ok m) : wfAssetMap m := by
  cases j <;> try exact Except.noConfusion h
  case obj fields =>
    simp only [parseAssetMap] at h
    exact parseEntries_forall _ parseI64 parseI64_range fields m h

/-- Values produced by the parser are in range. -/
theorem parseValue_wf (j : Json) (v : Value) (h : parseValue j = .ok v) : wfValue v := by
  cases j <;> try exact Except.noConfusion h
  case obj fields =>
    simp only [parseValue] at h
    cases hlk : fields.lookup "lovelace" with
    | none =>
      simp only [hlk, except_bind_ok] at h
      cases hpe : parseEntries (List (String × Int)) parseAssetMap
          (fields.filter (fun p => p.1 != "lovelace")) with
      | error e => simp only [hpe, except_bind_error] at h; exact Except.noConfusion h
      | ok assets =>
        simp only [hpe, except_bind_ok] at h
        cases h
        exact ⟨by norm_num, parseEntries_forall _ parseAssetMap parseAssetMap_wf _ _ hpe⟩
    | some lj =>
      simp only [hlk] at h
      cases hu : parseU64 lj with
      | error e => simp only [hu, except_bind_error] at h; exact Except.noConfusion h
      | ok l =>
        simp only [hu, except_bind_ok] at h
        cases hpe : parseEntries (List (String × Int)) parseAssetMap
            (fields.filter (fun p => p.1 != "lovelace")) with
        | error e => simp only [hpe, except_bind_error] at h; exact Except.noConfusion h
        | ok assets =>
          simp only [hpe, except_bind_ok] at h
          cases h
          exact ⟨parseU64_lt lj l hu,
            parseEntries_forall _ parseAssetMap parseAssetMap_wf _ _ hpe⟩

/-- A present-with-value `inline_datum` produced by the parser is never the
JSON `null`. -/
theorem parseOptOpt_inline_not_null (fields : List (String × Json)) (name : String)
    (o : Option (Option Json))
    (h : parseOptOpt Json (fun j => .ok j) fields name = .ok o) :
    ∀ jd, o = some (some jd) → jd ≠ Json.null := by
  intro jd ho hn
  subst ho
  subst hn
  simp only [parseOptOpt] at h
  cases hlk : fields.lookup name with
  | none => rw [hlk] at h; exact absurd h (by simp)
  | some j =>
    rw [hlk] at h
    cases hnull : j.isNull with
    | true => simp only [hnull, if_true] at h; exact absurd h (by simp)
    | false =>
      simp only [hnull, Bool.false_eq_true, if_false, except_bind_ok] at h
      simp only [Except.ok.injEq, Option.some.injEq] at h
      subst h
      simp [Json.isNull] at hnull

/-- Entries produced by the `TxOut` parser are well formed: the value is in
range and the inline datum is never present-with-`null`. -/
theorem parseTxOut_wf (j : Json) (t : TxOut) (h : parseTxOut j = .ok t) : wfTxOut t := by
  cases j <;> try exact Except.noConfusion h
  case obj fields =>
    simp only [parseTxOut] at h
    obtain ⟨j1, e1⟩ : ∃ x, reqField fields "address" = .ok x := by
      cases e : reqField fields "address" with
      | error s => simp only [e, except_bind_error] at h; exact Except.noConfusion h
      | ok x => exact ⟨x, rfl⟩
    simp only [e1, except_bind_ok] at h
    obtain ⟨addr, e2⟩ : ∃ x, parseString j1 = .ok x := by
      cases e : parseString j1 with
      | error s => simp only [e, except_bind_error] at h; exact Except.noConfusion h
      | ok x => exact ⟨x, rfl⟩
    simp only [e2, except_bind_ok] at h
    obtain ⟨j2, e3⟩ : ∃ x, reqField fields "value" = .ok x := by
      cases e : reqField fields "value" with
      | error s => simp only [e, except_bind_error] at h; exact Except.noConfusion h
      | ok x => exact ⟨x, rfl⟩
    simp only [e3, except_bind_ok] at h
    obtain ⟨val, e4⟩ : ∃ x, parseValue j2 = .ok x := by
      cases e : parseValue j2 with
      | error s => simp only [e, except_bind_error] at h; exact Except.noConfusion h
      | ok x => exact ⟨x, rfl⟩
    simp only [e4, except_bind_ok] at h
    obtain ⟨rs, e5⟩ : ∃ x, parseOptOpt Script parseScript fields "reference_script" = .ok x := by
      cases e : parseOptOpt Script parseScript fields "reference_script" with
      | error s => simp only [e, except_bind_error] at h; exact Except.noConfusion h
      | ok x => exact ⟨x, rfl⟩
    simp only [e5, except_bind_ok] at h
    obtain ⟨dh, e6⟩ : ∃ x, parseOptOpt String parseString fields "datumhash" = .ok x := by
      cases e : parseOptOpt String parseString fields "datumhash" with
      | error s => simp only [e, except_bind_error] at h; exact Except.noConfusion h
      | ok x => exact ⟨x, rfl⟩
    simp only [e6, except_bind_ok] at h
    obtain ⟨idt, e7⟩ : ∃ x, parseOptOpt Json (fun j => .ok j) fields "inline_datum" = .ok x := by
      cases e : parseOptOpt Json (fun j => .ok j) fields "inline_datum" with
      | error s => simp only [e, except_bind_error] at h; exact Except.noConfusion h
      | ok x => exact ⟨x, rfl⟩
    simp only [e7, except_bind_ok] at h
    obtain ⟨idh, e8⟩ : ∃ x, parseOptOpt String parseString fields "inline_datumhash" = .ok x := by
      cases e : parseOptOpt String parseString fields "inline_datumhash" with
      | error s => simp only [e, except_bind_error] at h; exact Except.noConfusion h
      | ok x => exact ⟨x, rfl⟩
    simp only [e8, except_bind_ok] at h
    obtain ⟨idr, e9⟩ : ∃ x, parseOptOpt String parseString fields "inline_datum_raw" = .ok x := by
      cases e : parseOptOpt String parseString fields "inline_datum_raw" with
      | error s => simp only [e, except_bind_error] at h; exact Except.noConfusion h
      | ok x => exact ⟨x, rfl⟩
    simp only [e9, except_bind_ok] at h
    obtain ⟨dt, e10⟩ : ∃ x, parseOptOpt String parseString fields "datum" = .ok x := by
      cases e : parseOptOpt String parseString fields "datum" with
      | error s => simp only [e, except_bind_error] at h; exact Except.noConfusion h
      | ok x => exact ⟨x, rfl⟩
    simp only [e10, except_bind_ok] at h
    cases h
    exact ⟨parseValue_wf j2 val e4, parseOptOpt_inline_not_null fields "inline_datum" idt e7⟩

/-- A successful validation run means every entry validated. -/
theorem validateEntries_ok_forall (u : UTxO) (h : validateEntries u = .ok ()) :
    ∀ e ∈ u, validateEntry e.1 e.2 = .ok () := by
  induction u with
  | nil => intro e he; exact absurd he (List.not_mem_nil e)
  | cons x xs ih =>
    obtain ⟨k, t⟩ := x
    simp only [validateEntries] at h
    cases hx : validateEntry k t with
    | error e => simp only [hx] at h; exact Except.noConfusion h
    | ok u' =>
      simp only [hx] at h
      intro e he
      rcases List.mem_cons.mp he with rfl | hmem
      · exact hx
      · exact ih h e hmem

/-- A successful policy loop means every policy id has byte length 56. -/
theorem validatePolicies_ok_forall (l : List (String × List (String × Int)))
    (h : validatePolicies l = .ok ()) :
    ∀ pa ∈ l, (pa.1.utf8ByteSize == 56) = true := by
  induction l with
  | nil => intro pa hpa; exact absurd hpa (List.not_mem_nil pa)
  | cons x xs ih =>
    obtain ⟨p, m⟩ := x
    simp only [validatePolicies] at h
    split_ifs at h with hc he
    cases han : validateAssetNames m with
    | error e => simp only [han] at h; exact Except.noConfusion h
    | ok u =>
      simp only [han] at h
      intro pa hpa
      rcases List.mem_cons.mp hpa with rfl | hmem
      · cases hb : (p.utf8ByteSize == 56) with
        | true => rfl
        | false => simp [hb] at hc
      · exact ih h pa hmem

/-- A successful policy loop rules out a `"lovelace"` policy key (its byte
length is 8, not 56), so the flattened serialization cannot collide with the
declared `lovelace` field. -/
theorem no_lovelace_key (l : List (String × List (String × Int)))
    (h : validatePolicies l = .ok ()) : ∀ pa ∈ l, pa.1 ≠ "lovelace" := by
  intro pa hpa heq
  have h56 := validatePolicies_ok_forall l h pa hpa
  rw [heq] at h56
  exact absurd h56 (by decide)

/-- The JSON value of one present optional field: `null` for
present-but-null, the serialized payload otherwise. -/
def serOptJson {α : Type} (ser : α → Json) : Option α → Json
  | none => Json.null
  | some x => ser x

/-- Looking up a different name in one serialized optional field finds
nothing. -/
theorem lookup_optField_ne {α : Type} (k name : String) (ser : α → Json) (o : Option (Option α))
    (h : (k == name) = false) : List.lookup k (optField α name ser o) = none := by
  cases o with
  | none => rfl
  | some i => cases i <;> simp [optField, List.lookup, h]

/-- Looking up the field's own name in its serialization: absent gives
nothing, null gives `null`, a value gives its serialization. -/
theorem lookup_optField_self {α : Type} (name : String) (ser : α → Json) (o : Option (Option α)) :
    List.lookup name (optField α name ser o) = o.map (serOptJson ser) := by
  cases o with
  | none => rfl
  | some i => cases i <;> simp [optField, List.lookup, serOptJson]

/-- The serialized `reference_script` lookup. -/
theorem lookup_ser_rs (t : TxOut) :
    List.lookup "reference_script" (serializeTxOutFields t) =
      t.reference_script.map (serOptJson serializeScript) := by
  simp [serializeTxOutFields, List.lookup, List.lookup_append, lookup_optField_ne,
    lookup_optField_self, Option.or_none, Option.none_or]

/-- The serialized `datumhash` lookup. -/
theorem lookup_ser_dh (t : TxOut) :
    List.lookup "datumhash" (serializeTxOutFields t) =
      t.datumhash.map (serOptJson Json.str) := by
  simp [serializeTxOutFields, List.lookup, List.lookup_append, lookup_optField_ne,
    lookup_optField_self, Option.or_none, Option.none_or]

/-- The serialized `inline_datum` lookup. -/
theorem lookup_ser_idt (t : TxOut) :
    List.lookup "inline_datum" (serializeTxOutFields t) =
      t.inline_datum.map (serOptJson id) := by
  simp [serializeTxOutFields, List.lookup, List.lookup_append, lookup_optField_ne,
    lookup_optField_self, Option.or_none, Option.none_or]

/-- The serialized `inline_datumhash` lookup. -/
theorem lookup_ser_idh (t : TxOut) :
    List.lookup "inline_datumhash" (serializeTxOutFields t) =
      t.inline_datumhash.map (serOptJson Json.str) := by
  simp [serializeTxOutFields, List.lookup, List.lookup_append, lookup_optField_ne,
    lookup_optField_self, Option.or_none, Option.none_or]

/-- The serialized `inline_datum_raw` lookup. -/
theorem lookup_ser_idr (t : TxOut) :
    List.lookup "inline_datum_raw" (serializeTxOutFields t) =
      t.inline_datum_raw.map (serOptJson Json.str) := by
  simp [serializeTxOutFields, List.lookup, List.lookup_append, lookup_optField_ne,
    lookup_optField_self, Option.or_none, Option.none_or]

/-- The serialized `datum` lookup. -/
theorem lookup_ser_dt (t : TxOut) :
    List.lookup "datum" (serializeTxOutFields t) =
      t.datum.map (serOptJson Json.str) := by
  simp [serializeTxOutFields, List.lookup, List.lookup_append, lookup_optField_ne,
    lookup_optField_self, Option.or_none, Option.none_or]

/-- The serialized `address` lookup. -/
theorem lookup_ser_address (t : TxOut) :
    List.lookup "address" (serializeTxOutFields t) = some (Json.str t.address) := by
  simp [serializeTxOutFields, List.lookup]

/-- The serialized `value` lookup. -/
theorem lookup_ser_value (t : TxOut) :
    List.lookup "value" (serializeTxOutFields t) = some (serializeValue t.value) := by
  simp [serializeTxOutFields, List.lookup]

/-- `parseOptOpt` on an absent key. -/
theorem parseOptOpt_eq_of_none {α : Type} (inner : Json → Except String α)
    (fields : List (String × Json)) (name : String)
    (hl : List.lookup name fields = none) :
    parseOptOpt α inner fields name = .ok none := by
  simp [parseOptOpt, hl]

/-- `parseOptOpt` on a key present with `null`. -/
theorem parseOptOpt_eq_of_null {α : Type} (inner : Json → Except String α)
    (fields : List (String × Json)) (name : String)
    (hl : List.lookup name fields = some Json.null) :
    parseOptOpt α inner fields name = .ok (some none) := by
  simp [parseOptOpt, hl, Json.isNull]

/-- `parseOptOpt` on a key present with a non-null value the inner parser
accepts. -/
theorem parseOptOpt_eq_of_val {α : Type} (inner : Json → Except String α)
    (fields : List (String × Json)) (name : String) (j : Json) (a : α)
    (hl : List.lookup name fields = some j) (hnn : j.isNull = false)
    (hi : inner j = .ok a) :
    parseOptOpt α inner fields name = .ok (some (some a)) := by
  simp [parseOptOpt, hl, hnn, hi, except_bind_ok]

/-- Script-type tags round-trip. -/
theorem rtScriptType (ty : ScriptType) :
    parseScriptType (serializeScriptType ty) = .ok ty := by
  cases ty <;> rfl

/-- Script details round-trip. -/
theorem rtScriptDetails (d : ScriptDetails) :
    parseScriptDetails (serializeScriptDetails d) = .ok d := by
  obtain ⟨ch, ds, ty⟩ := d
  cases ty <;> rfl

/-- Scripts round-trip. -/
theorem rtScript (sc : Script) : parseScript (serializeScript sc) = .ok sc := by
  obtain ⟨lang, det⟩ := sc
  obtain ⟨ch, ds, ty⟩ := det
  cases ty <;> rfl

/-- Asset maps in `i64` range round-trip. -/
theorem rtAssetMap (m : List (String × Int)) (h : wfAssetMap m) :
    parseAssetMap (serializeAssetMap m) = .ok m := by
  simp only [serializeAssetMap, parseAssetMap]
  exact parseEntries_roundtrip parseI64 Json.num m
    (fun b hb => by simp only [parseI64]; rw [if_pos (h b hb)])

/-- Values in range whose policies avoid the `lovelace` key round-trip. -/
theorem rtValue (v : Value) (hwf : wfValue v)
    (hlov : ∀ pa ∈ v.assets, pa.1 ≠ "lovelace") :
    parseValue (serializeValue v) = .ok v := by
  obtain ⟨hl64, hranges⟩ := hwf
  have hfil : (v.assets.map (fun p => (p.1, serializeAssetMap p.2))).filter
      (fun p => p.1 != "lovelace") = v.assets.map (fun p => (p.1, serializeAssetMap p.2)) := by
    rw [List.filter_eq_self]
    intro a ha
    rcases List.mem_map.mp ha with ⟨pa, hpa, rfl⟩
    simpa using hlov pa hpa
  have hpe : parseEntries (List (String × Int)) parseAssetMap
      (v.assets.map (fun p => (p.1, serializeAssetMap p.2))) = .ok v.assets :=
    parseEntries_roundtrip parseAssetMap serializeAssetMap v.assets
      (fun b hb => rtAssetMap b.2 (hranges b hb))
  have hu : parseU64 (Json.num (Int.ofNat v.lovelace)) = .ok v.lovelace := by
    simp only [parseU64]
    rw [if_pos ⟨Int.ofNat_nonneg _, by simpa using Int.ofNat_lt.mpr hl64⟩]
    simp
  have hlk : List.lookup "lovelace"
      (("lovelace", Json.num (Int.ofNat v.lovelace)) ::
        v.assets.map (fun p => (p.1, serializeAssetMap p.2))) =
      some (Json.num (Int.ofNat v.lovelace)) := by
    simp [List.lookup]
  have hfc : (("lovelace", Json.num (Int.ofNat v.lovelace)) ::
      v.assets.map (fun p => (p.1, serializeAssetMap p.2))).filter
        (fun p => p.1 != "lovelace") =
      v.assets.map (fun p => (p.1, serializeAssetMap p.2)) := by
    rw [List.filter_cons_of_neg (by simp), hfil]
  simp only [serializeValue, parseValue, hlk, hu, except_bind_ok, hfc, hpe]

/-- Well-formed entries whose policies avoid the `lovelace` key round-trip. -/
theorem rtTxOut (t : TxOut) (hwf : wfTxOut t)
    (hlov : ∀ pa ∈ t.value.assets, pa.1 ≠ "lovelace") :
    parseTxOut (serializeTxOut t) = .ok t := by
  obtain ⟨hv, hid⟩ := hwf
  have hrtv : parseValue (serializeValue t.value) = .ok t.value := rtValue t.value hv hlov
  have hrs : parseOptOpt Script parseScript (serializeTxOutFields t) "reference_script" =
      .ok t.reference_script := by
    cases hc : t.reference_script with
    | none => exact parseOptOpt_eq_of_none _ _ _ (by rw [lookup_ser_rs, hc]; rfl)
    | some i =>
      cases i with
      | none => exact parseOptOpt_eq_of_null _ _ _ (by rw [lookup_ser_rs, hc]; rfl)
      | some sc =>
        exact parseOptOpt_eq_of_val _ _ _ (serializeScript sc) sc
          (by rw [lookup_ser_rs, hc]; rfl) rfl (rtScript sc)
  have hdh : parseOptOpt String parseString (serializeTxOutFields t) "datumhash" =
      .ok t.datumhash := by
    cases hc : t.datumhash with
    | none => exact parseOptOpt_eq_of_none _ _ _ (by rw [lookup_ser_dh, hc]; rfl)
    | some i =>
      cases i with
      | none => exact parseOptOpt_eq_of_null _ _ _ (by rw [lookup_ser_dh, hc]; rfl)
      | some s =>
        exact parseOptOpt_eq_of_val _ _ _ (Json.str s) s
          (by rw [lookup_ser_dh, hc]; rfl) rfl rfl
  have hidt : parseOptOpt Json (fun j => .ok j) (serializeTxOutFields t) "inline_datum" =
      .ok t.inline_datum := by
    cases hc : t.inline_datum with
    | none => exact parseOptOpt_eq_of_none _ _ _ (by rw [lookup_ser_idt, hc]; rfl)
    | some i =>
      cases i with
      | none => exact parseOptOpt_eq_of_null _ _ _ (by rw [lookup_ser_idt, hc]; rfl)
      | some jd =>
        have hnn : jd.isNull = false := by
          cases jd <;> first
            | rfl
            | exact absurd rfl (hid Json.null hc)
        exact parseOptOpt_eq_of_val _ _ _ jd jd
          (by rw [lookup_ser_idt, hc]; rfl) hnn rfl
  have hidh : parseOptOpt String parseString (serializeTxOutFields t) "inline_datumhash" =
      .ok t.inline_datumhash := by
    cases hc : t.inline_datumhash with
    | none => exact parseOptOpt_eq_of_none _ _ _ (by rw [lookup_ser_idh, hc]; rfl)
    | some i =>
      cases i with
      | none => exact parseOptOpt_eq_of_null _ _ _ (by rw [lookup_ser_idh, hc]; rfl)
      | some s =>
        exact parseOptOpt_eq_of_val _ _ _ (Json.str s) s
          (by rw [lookup_ser_idh, hc]; rfl) rfl rfl
  have hidr : parseOptOpt String parseString (serializeTxOutFields t) "inline_datum_raw" =
      .ok t.inline_datum_raw := by
    cases hc : t.inline_datum_raw with
    | none => exact parseOptOpt_eq_of_none _ _ _ (by rw [lookup_ser_idr, hc]; rfl)
    | some i =>
      cases i with
      | none => exact parseOptOpt_eq_of_null _ _ _ (by rw [lookup_ser_idr, hc]; rfl)
      | some s =>
        exact parseOptOpt_eq_of_val _ _ _ (Json.str s) s
          (by rw [lookup_ser_idr, hc]; rfl) rfl rfl
  have hdt : parseOptOpt String parseString (serializeTxOutFields t) "datum" =
      .ok t.datum := by
    cases hc : t.datum with
    | none => exact parseOptOpt_eq_of_none _ _ _ (by rw [lookup_ser_dt, hc]; rfl)
    | some i =>
      cases i with
      | none => exact parseOptOpt_eq_of_null _ _ _ (by rw [lookup_ser_dt, hc]; rfl)
      | some s =>
        exact parseOptOpt_eq_of_val _ _ _ (Json.str s) s
          (by rw [lookup_ser_dt, hc]; rfl) rfl rfl
  have hA : reqField (serializeTxOutFields t) "address" = .ok (Json.str t.address) := by
    rw [reqField, lookup_ser_address]
  have hV : reqField (serializeTxOutFields t) "value" = .ok (serializeValue t.value) := by
    rw [reqField, lookup_ser_value]
  simp only [serializeTxOut, parseTxOut]
  rw [hA, except_bind_ok]
  rw [show parseString (Json.str t.address) = .ok t.address from rfl, except_bind_ok]
  rw [hV, except_bind_ok]
  rw [hrtv, except_bind_ok]
  rw [hrs, except_bind_ok]
  rw [hdh, except_bind_ok]
  rw [hidt, except_bind_ok]
  rw [hidh, except_bind_ok]
  rw [hidr, except_bind_ok]
  rw [hdt, except_bind_ok]

/-- C8: a document that parses and validates successfully, when the parsed
snapshot is serialized back to JSON, parses back to the same snapshot and
validates successfully again. -/
theorem c8_roundtrip (j : Json) (u : UTxO)
    (hp : parseUTxO j = .ok u) (hv : validateEntries u = .ok ()) :
    parseUTxO (serializeUTxO u) = .ok u ∧ validate_json (serializeUTxO u) = .ok () := by
  have hwf : ∀ e ∈ u, wfTxOut e.2 := by
    cases j <;> try exact Except.noConfusion hp
    case obj fields =>
      simp only [parseUTxO] at hp
      exact parseEntries_forall wfTxOut parseTxOut parseTxOut_wf fields u hp
  have hlov : ∀ e ∈ u, ∀ pa ∈ e.2.value.assets, pa.1 ≠ "lovelace" := by
    intro e he
    have hent := validateEntries_ok_forall u hv e he
    have hvv : validate_value e.2.value = .ok () :=
      ((validateEntry_ok_iff e.1 e.2).mp hent).2.2.1
    exact no_lovelace_key e.2.value.assets hvv
  have hrt : parseEntries TxOut parseTxOut (u.map (fun p => (p.1, serializeTxOut p.2))) =
      .ok u :=
    parseEntries_roundtrip parseTxOut serializeTxOut u
      (fun b hb => rtTxOut b.2 (hwf b hb) (hlov b hb))
  refine ⟨?_, ?_⟩
  · simp only [serializeUTxO, parseUTxO]
    exact hrt
  · unfold validate_json
    simp only [serializeUTxO, parseUTxO]
    rw [hrt, except_bind_ok]
    exact hv

/-- A document exercising lovelace, a policy with one asset, a null
datumhash and a reference script. -/
def rtDoc : Json :=
  .obj [(refKey, .obj [("address", .str "addr1"),
    ("value", .obj [("lovelace", .num 3), (policyB, .obj [(name64, .num 9)])]),
    ("datumhash", .null),
    ("reference_script", .obj [("script_language", .str "PlutusV2"),
      ("script", .obj [("cbor_hex", .str "4948"), ("description", .str "d"),
        ("type", .str "plutusScriptV2")])])])]

/-- The snapshot `rtDoc` parses to. -/
def rtParsed : TxOut :=
  ⟨"addr1", ⟨3, [(policyB, [(name64, 9)])]⟩,
    some (some ⟨"PlutusV2", ⟨"4948", "d", .plutusScriptV2⟩⟩),
    some none, none, none, none, none⟩

/-- C8 witness: a concrete parsed-and-valid snapshot round-trips. -/
theorem c8_roundtrip_witness :
    parseUTxO rtDoc = .ok [(refKey, rtParsed)] ∧
    validateEntries [(refKey, rtParsed)] = .ok () ∧
    (parseUTxO (serializeUTxO [(refKey, rtParsed)]) = .ok [(refKey, rtParsed)] ∧
     validate_json (serializeUTxO [(refKey, rtParsed)]) = .ok ()) :=
  ⟨rfl, rfl, c8_roundtrip rtDoc [(refKey, rtParsed)] rfl rfl⟩

end Juno
